import Mathlib

/-!
# Verification of the niconico-api-client request pipeline

Shallow embedding, in Lean 4, of the shared request pipeline of the
niconico-api-client repository: the rate limiter, the relative-URL guard,
the pagination hasMore computations of the three resource families, the
earnings-period resolver with its 409 fallback, the monthly-history
range validation, and the error classifier.

Each definition is translated from one concrete source function and is
annotated with the file and symbol it embeds.  JavaScript numeric and
string semantics are made explicit where they matter (division by zero
producing Infinity or NaN, parseInt, String.prototype.substring,
String.prototype.startsWith).
-/

/-! ## Error model (src/src/clients/BaseNiconicoClient.ts, handleError) -/

/-- Value found in the body's message field: a JS string or any other JS value. -/
inductive JsonVal where
  | str (s : String)
  | other
deriving DecidableEq

/-- Shape of an error-response body as far as extractErrorMessage inspects it:
not an object, an object without a message field, or an object with one. -/
inductive BodyData where
  | notAnObject
  | objWithoutMessage
  | objWithMessage (v : JsonVal)
deriving DecidableEq

/-- An axios failure as far as handleError inspects it: an optional
response (HTTP status together with the body), an optional code string,
and whether axios.isAxiosError respectively instanceof Error hold. -/
structure AxiosFailure where
  response : Option (Int × BodyData)
  code : Option String
  isAxiosError : Bool
  isError : Bool
deriving DecidableEq

/-- The closed taxonomy of domain errors produced by the classifier
(src/src/clients/BaseNiconicoClient.ts lines 207-264; the kinds are the
distinct Error constructions of handleError). -/
inductive DomainError where
  | invalidParameters (msg : String)
  | unauthenticated
  | forbidden (msg : String)
  | notFound
  | rateLimited
  | upstreamUnavailable
  | upstreamError (status : Int) (msg : String)
  | timeout
  | networkError
  | unknown
deriving DecidableEq

/-- Embeds extractErrorMessage (src/src/clients/BaseNiconicoClient.ts
lines 258-264): the body's message field when it is a string, otherwise
the fixed fallback text 詳細不明 (details unknown). -/
def extractErrorMessage : BodyData → String
  | .objWithMessage (.str s) => s
  | _ => "詳細不明"

/-- Embeds handleError (src/src/clients/BaseNiconicoClient.ts lines
207-246).  The same classifier appears verbatim in
src/src/utils/httpClient.ts and src/src/NiconicoApiClient.ts. -/
def handleError (e : AxiosFailure) : DomainError :=
  match e.response with
  | some (status, data) =>
    if status = 400 then .invalidParameters (extractErrorMessage data)
    else if status = 401 then .unauthenticated
    else if status = 403 then .forbidden (extractErrorMessage data)
    else if status = 404 then .notFound
    else if status = 429 then .rateLimited
    else if status = 500 ∨ status = 502 ∨ status = 503 then .upstreamUnavailable
    else .upstreamError status (extractErrorMessage data)
  | none =>
    if e.code = some "ECONNABORTED" then .timeout
    else if e.isAxiosError then .networkError
    else .unknown

/-- Written from the specification's own wording of the taxonomy (spec
section 4.3): 400 InvalidParameters, 401 Unauthenticated, 403 Forbidden,
404 NotFound, 429 RateLimited, 500/502/503 UpstreamUnavailable, any
other status UpstreamError with status and message, connection timeout
Timeout, other transport failure NetworkError, anything unrecognized
Unknown; the message is the body's string-typed message field when
present and the fixed fallback otherwise.  This definition exists to be
compared against the source-derived handleError. -/
def classifyTaxonomy (e : AxiosFailure) : DomainError :=
  match e.response with
  | some (status, body) =>
    let msg := extractErrorMessage body
    if status = 400 then .invalidParameters msg
    else if status = 401 then .unauthenticated
    else if status = 403 then .forbidden msg
    else if status = 404 then .notFound
    else if status = 429 then .rateLimited
    else if status = 500 ∨ status = 502 ∨ status = 503 then .upstreamUnavailable
    else .upstreamError status msg
  | none =>
    if e.code = some "ECONNABORTED" then .timeout
    else if e.isAxiosError then .networkError
    else .unknown

/-! ## Earnings-period resolver (src/src/clients/NiconicoIncomeClient.ts) -/

/-- A resolved earnings period. -/
structure YearMonth where
  year : Int
  month : Int
deriving DecidableEq

/-- A response envelope as far as the probe inspects it: the meta.status
value when the hasMetaStatus type guard accepts the body, none when the
body has no meta property with a status. -/
structure ApiEnvelope where
  metaStatus : Option Int
deriving DecidableEq

/-- Embeds checkEarningsAvailability
(src/src/clients/NiconicoIncomeClient.ts lines 140-177).  The probe
outcome is either the envelope the transport returned or an axios
failure; the catch block of the source maps every failure to false. -/
def checkEarningsAvailability : Except AxiosFailure ApiEnvelope → Bool
  | .ok r =>
    match r.metaStatus with
    | some status =>
      if status = 200 then true
      else if status = 409 then false
      else true
    | none => true
  | .error _ => false

/-- Embeds getPreviousMonth (src/src/clients/NiconicoIncomeClient.ts
lines 190-195). -/
def getPreviousMonth (year month : Int) : YearMonth :=
  if month = 1 then ⟨year - 1, 12⟩ else ⟨year, month - 1⟩

/-- Embeds determineTargetYearMonth
(src/src/clients/NiconicoIncomeClient.ts lines 118-138), with the
wall-clock current year and month and the probe outcome passed
explicitly. -/
def determineTargetYearMonth (requestedYear requestedMonth : Int)
    (probe : Except AxiosFailure ApiEnvelope) : YearMonth :=
  if checkEarningsAvailability probe then ⟨requestedYear, requestedMonth⟩
  else getPreviousMonth requestedYear requestedMonth

/-- A probe envelope in the monolithic client variant
(src/src/NiconicoApiClient.ts), whose TypeScript type declares meta.status
as always present. -/
structure IncomeTotalEnvelope where
  metaStatus : Int
deriving DecidableEq

/-- HTTP status of the response attached to a failure, when there is one. -/
def respStatus (e : AxiosFailure) : Option Int := e.response.map Prod.fst

/-- Embeds checkEarningsAvailability of the monolithic client
(src/src/NiconicoApiClient.ts lines 635-664): the catch handler converts a
failure whose response status is 409 into a 409 envelope (hence false) and
rethrows every other failure; then 200 gives true, 409 false, and any
other status true. -/
def checkEarningsAvailabilityMono :
    Except AxiosFailure IncomeTotalEnvelope → Except AxiosFailure Bool
  | .ok r =>
    .ok (if r.metaStatus = 200 then true
      else if r.metaStatus = 409 then false
      else true)
  | .error e => if respStatus e = some 409 then .ok false else .error e

/-- Embeds determineTargetYearMonth of the monolithic client
(src/src/NiconicoApiClient.ts lines 613-633): an uncaught probe failure
propagates, otherwise availability selects the current or the previous
month. -/
def determineTargetYearMonthMono (requestedYear requestedMonth : Int)
    (probe : Except AxiosFailure IncomeTotalEnvelope) :
    Except AxiosFailure YearMonth :=
  match checkEarningsAvailabilityMono probe with
  | .ok true => .ok ⟨requestedYear, requestedMonth⟩
  | .ok false => .ok (getPreviousMonth requestedYear requestedMonth)
  | .error e => .error e

/-! ## Pagination hasMore computations -/

/-- Embeds the hasMore computation of fetchEarnings
(src/src/clients/NiconicoIncomeClient.ts line 39):
offset + limit < total and the contents array is nonempty. -/
def fetchEarningsHasMore (offset limit total : Int) (contentsLength : Nat) : Bool :=
  decide (offset + limit < total) && decide (contentsLength > 0)

/-- Embeds the hasMore computation of fetchEarningsHistory
(src/src/clients/NiconicoIncomeClient.ts line 105): the conjuncts of the
earnings computation in the opposite order. -/
def fetchEarningsHistoryHasMore (offset limit total : Int) (contentsLength : Nat) : Bool :=
  decide (contentsLength > 0) && decide (offset + limit < total)

/-- Data part of the live-broadcast-history response
(src/src/types/NiconicoLiveApiTypes.ts): the program list, the upstream
hasNext flag (declared boolean, not optional), and the total count. -/
structure LiveBroadcastData (α : Type) where
  programsList : List α
  hasNext : Bool
  totalCount : Int

/-- Embeds the hasMore computation of fetchLives
(src/src/clients/NiconicoLiveClient.ts line 38), keeping the source's
double negation literally: (not hasNext) === false, conjoined with the
arithmetic condition. -/
def fetchLivesHasMore (d : LiveBroadcastData α) (offset limit : Int) : Bool :=
  ((!d.hasNext) == false) && decide (offset + limit < d.totalCount)

/-- JS number as it can arise from Math.ceil of a division of two
nonnegative integers: a natural number, positive Infinity, or NaN. -/
inductive JsNumber where
  | num (n : Nat)
  | posInf
  | nan
deriving DecidableEq

/-- Embeds Math.ceil(totalCount / pageSize) for natural inputs under
IEEE-754 semantics of the JS division operator: a positive value divided
by zero is Infinity, zero divided by zero is NaN, and otherwise the exact
ceiling (JS doubles represent these counts exactly). -/
def jsCeilDiv (totalCount pageSize : Nat) : JsNumber :=
  if pageSize = 0 then
    (if totalCount = 0 then .nan else .posInf)
  else .num ((totalCount + pageSize - 1) / pageSize)

/-- Embeds the JS comparison page < x for a natural page: every finite
number is below Infinity, and every comparison with NaN is false. -/
def jsLtNat (page : Nat) : JsNumber → Bool
  | .num k => decide (page < k)
  | .posInf => true
  | .nan => false

/-- Embeds the hasMore computation of fetchVideos
(src/src/clients/NiconicoVideoClient.ts lines 26-27):
totalPages = Math.ceil(totalCount / pageSize) and hasMore = page < totalPages. -/
def fetchVideosHasMore (page totalCount pageSize : Nat) : Bool :=
  jsLtNat page (jsCeilDiv totalCount pageSize)

/-! ## Rate limiter (src/src/utils/rateLimiter.ts and
BaseNiconicoClient.enforceRateLimit) -/

/-- Default value of the requestInterval constructor parameter of
RateLimiter (src/src/utils/rateLimiter.ts) and of the requestInterval
fallback in BaseNiconicoClient. -/
def defaultRequestInterval : Int := 1000

/-- Embeds the wait computed by enforce: zero when the elapsed time since
the recorded timestamp reaches minRequestInterval, otherwise the
remainder of the interval. -/
def enforceWaitTime (lastRequestTime minRequestInterval now : Int) : Int :=
  if now - lastRequestTime < minRequestInterval then
    minRequestInterval - (now - lastRequestTime)
  else 0

/-- Instant at which enforce resumes after its setTimeout suspension
(the start of the request attempt), assuming the timer fires exactly
after the computed wait. -/
def enforceResumeTime (lastRequestTime minRequestInterval now : Int) : Int :=
  now + enforceWaitTime lastRequestTime minRequestInterval now

/-- Timestamp recorded by enforce after the suspension: Date.now() at the
resume instant. -/
def enforceNewLastRequestTime (lastRequestTime minRequestInterval now : Int) : Int :=
  enforceResumeTime lastRequestTime minRequestInterval now

/-! ## Request pipeline (src/src/clients/BaseNiconicoClient.ts request,
src/src/utils/httpClient.ts request) -/

/-- Embeds JS String.prototype.startsWith on the code points of the two
strings. -/
def jsStartsWith (s pre : String) : Bool :=
  s.toList.take pre.length == pre.toList

/-- Errors a pipeline call can raise locally: the relative-URL guard, the
automatic meta.status check, or a classified transport failure. -/
inductive PipelineError where
  | localUrlError (msg : String)
  | metaStatusError (status : Int)
  | classified (e : DomainError)
deriving DecidableEq

/-- Mutable state of one client instance: the rate limiter timestamp. -/
structure PipelineState where
  lastRequestTime : Int
deriving DecidableEq

/-- Observable outcome of one call to BaseNiconicoClient.request: the
result, the final client state, and whether the rate limiter and the
transport were reached. -/
structure RequestTrace where
  result : Except PipelineError ApiEnvelope
  finalState : PipelineState
  rateLimiterRan : Bool
  transportCalled : Bool

/-- Embeds BaseNiconicoClient.request
(src/src/clients/BaseNiconicoClient.ts lines 56-112) as a function of the
URL, the skipStatusCheck flag, the client state, the clock, and the
transport outcome.  The relative-URL guard throws before enforceRateLimit
runs; on the absolute path the rate limiter advances the state, the
transport is dispatched, a failure is classified, and unless
skipStatusCheck is set an envelope whose meta.status is present and not
200 is turned into an error. -/
def request (url : String) (skipStatusCheck : Bool) (st : PipelineState)
    (minRequestInterval now : Int)
    (transport : Except AxiosFailure ApiEnvelope) : RequestTrace :=
  if !(jsStartsWith url "http") then
    ⟨.error (.localUrlError
        ("BaseNiconicoClient now requires absolute URLs. Received: " ++ url)),
      st, false, false⟩
  else
    let st2 : PipelineState :=
      ⟨enforceNewLastRequestTime st.lastRequestTime minRequestInterval now⟩
    match transport with
    | .error e => ⟨.error (.classified (handleError e)), st2, true, true⟩
    | .ok env =>
      match env.metaStatus with
      | some s =>
        if !skipStatusCheck && !(s == 200) then
          ⟨.error (.metaStatusError s), st2, true, true⟩
        else ⟨.ok env, st2, true, true⟩
      | none => ⟨.ok env, st2, true, true⟩

/-- Embeds HttpClient.request (src/src/utils/httpClient.ts lines 33-86):
the same relative-URL guard and meta.status check, with no rate limiter
inside the class; the Bool records whether the transport was reached. -/
def httpClientRequest (url : String) (skipStatusCheck : Bool)
    (transport : Except AxiosFailure ApiEnvelope) :
    Except PipelineError ApiEnvelope × Bool :=
  if !(jsStartsWith url "http") then
    (.error (.localUrlError
        ("HttpClient now requires absolute URLs. Received: " ++ url)), false)
  else
    match transport with
    | .error e => (.error (.classified (handleError e)), true)
    | .ok env =>
      match env.metaStatus with
      | some s =>
        if !skipStatusCheck && !(s == 200) then
          (.error (.metaStatusError s), true)
        else (.ok env, true)
      | none => (.ok env, true)

/-! ## Monthly-history range validation
(src/src/clients/NiconicoIncomeClient.ts fetchEarningsHistory, lines 52-90) -/

/-- Whitespace characters skipped by JS parseInt before the number. -/
def isJsWhitespace (c : Char) : Bool :=
  c = ' ' || c = '\t' || c = '\n' || c = '\r'

/-- Value of a leading run of decimal digits; none when it is empty. -/
def leadingDigits (cs : List Char) : Option Nat :=
  let ds := cs.takeWhile Char.isDigit
  if ds.isEmpty then none
  else some (ds.foldl (fun acc c => 10 * acc + (c.toNat - 48)) 0)

/-- Embeds JS parseInt(s, 10): skip leading whitespace, accept an
optional sign, read the longest run of decimal digits, and produce NaN
(none) when that run is empty. -/
def parseIntJS (s : String) : Option Int :=
  match s.toList.dropWhile isJsWhitespace with
  | '-' :: rest => (leadingDigits rest).map (fun n => -(n : Int))
  | '+' :: rest => (leadingDigits rest).map (fun n => (n : Int))
  | t => (leadingDigits t).map (fun n => (n : Int))

/-- Embeds JS String.prototype.substring(a, b) for a at most b: the code
points from index a up to b, clamped to the string length. -/
def jsSubstring (s : String) (a b : Nat) : String :=
  String.mk ((s.toList.take b).drop a)

/-- Embeds the validation prefix of fetchEarningsHistory
(src/src/clients/NiconicoIncomeClient.ts lines 62-90), which runs before
the network request is built: split the YYYYMM string, parse both parts
with parseInt, reject NaN or a month outside 1..12, reject a period
after the current calendar month, and reject a period after the
two-months-ago cutoff computed with year wrapping. -/
def fetchEarningsHistoryValidate (yearMonth : String)
    (currentYear currentMonth : Int) : Except String Unit :=
  let year := jsSubstring yearMonth 0 4
  let month := jsSubstring yearMonth 4 6
  match parseIntJS year, parseIntJS month with
  | some yearNum, some monthNum =>
    if monthNum < 1 ∨ monthNum > 12 then
      .error ("無効な年月フォーマット: " ++ yearMonth)
    else if yearNum > currentYear ∨ (yearNum = currentYear ∧ monthNum > currentMonth) then
      .error ("未来の月のデータは取得できません。指定された期間: " ++ year ++ "/" ++ month)
    else
      let twoMonthsAgoYear := if currentMonth > 2 then currentYear else currentYear - 1
      let twoMonthsAgoMonth := if currentMonth > 2 then currentMonth - 2 else currentMonth + 10
      if yearNum > twoMonthsAgoYear ∨
          (yearNum = twoMonthsAgoYear ∧ monthNum > twoMonthsAgoMonth) then
        .error ("月別履歴は2ヶ月前以前のデータのみ取得可能です。指定された期間: " ++ year ++ "/" ++ month)
      else .ok ()
  | _, _ => .error ("無効な年月フォーマット: " ++ yearMonth)

/-- True on the ok constructor of Except. -/
def exceptOk : Except ε α → Bool
  | .ok _ => true
  | .error _ => false

/-- Embeds the control flow of fetchEarningsHistory around its validation
prefix: the network request is issued exactly when validation passes. -/
def fetchEarningsHistoryNetworkCalled (yearMonth : String)
    (currentYear currentMonth : Int) : Bool :=
  exceptOk (fetchEarningsHistoryValidate yearMonth currentYear currentMonth)

/-! ## Theorems -/

/-- C1: earnings-period resolution as a function of the probe envelope
status: meta.status 200 resolves to the current (year, month); 409
resolves to the previous calendar month, wrapping month 1 to month 12 of
the previous year; any other status, and an envelope without meta.status,
resolve to the current (year, month). -/
theorem determineTargetYearMonth_envelope_cases (cy cm : Int) (env : ApiEnvelope) :
    (env.metaStatus = some 200 →
      determineTargetYearMonth cy cm (.ok env) = ⟨cy, cm⟩)
    ∧ (env.metaStatus = some 409 →
      determineTargetYearMonth cy cm (.ok env) =
        if cm = 1 then ⟨cy - 1, 12⟩ else ⟨cy, cm - 1⟩)
    ∧ (∀ s, env.metaStatus = some s → s ≠ 200 → s ≠ 409 →
      determineTargetYearMonth cy cm (.ok env) = ⟨cy, cm⟩)
    ∧ (env.metaStatus = none →
      determineTargetYearMonth cy cm (.ok env) = ⟨cy, cm⟩) := by
  refine ⟨?_, ?_, ?_, ?_⟩
  · intro h
    simp [determineTargetYearMonth, checkEarningsAvailability, h]
  · intro h
    simp [determineTargetYearMonth, checkEarningsAvailability, h, getPreviousMonth]
  · intro s h h200 h409
    simp [determineTargetYearMonth, checkEarningsAvailability, h, h200, h409]
  · intro h
    simp [determineTargetYearMonth, checkEarningsAvailability, h]

/-- Witness for C1: the spec examples, probe status 409 for (2024, 1)
resolves to (2023, 12) and status 200 for (2024, 6) resolves to (2024, 6). -/
theorem determineTargetYearMonth_envelope_cases_witness :
    determineTargetYearMonth 2024 1 (.ok ⟨some 409⟩) = ⟨2023, 12⟩
    ∧ determineTargetYearMonth 2024 6 (.ok ⟨some 200⟩) = ⟨2024, 6⟩ := by
  constructor
  · have h := (determineTargetYearMonth_envelope_cases 2024 1 ⟨some 409⟩).2.1 rfl
    simpa using h
  · exact (determineTargetYearMonth_envelope_cases 2024 6 ⟨some 200⟩).1 rfl

/-- C2 counterexample: a genuine transport failure during the probe (an
axios failure with no response attached) is caught by
checkEarningsAvailability of NiconicoIncomeClient, and the resolver does
fall back to the previous month instead of propagating the error. -/
theorem probe_transport_error_fallback_counterexample :
    checkEarningsAvailability
      (.error ⟨none, none, true, true⟩) = false
    ∧ determineTargetYearMonth 2024 6
      (.error ⟨none, none, true, true⟩) = ⟨2024, 5⟩ := by
  decide

/-- C2 amended: in NiconicoIncomeClient the probe catch block swallows
every failure and the resolver falls back to the previous month, while in
the monolithic NiconicoApiClient variant only a failure carrying HTTP
response status 409 is converted into an unavailable result and every
other failure propagates uncaught, with no fallback. -/
theorem probe_transport_error_behavior (cy cm : Int) (e : AxiosFailure) :
    determineTargetYearMonth cy cm (.error e) = getPreviousMonth cy cm
    ∧ (respStatus e ≠ some 409 →
      checkEarningsAvailabilityMono (.error e) = .error e
      ∧ determineTargetYearMonthMono cy cm (.error e) = .error e) := by
  constructor
  · simp [determineTargetYearMonth, checkEarningsAvailability]
  · intro h
    constructor
    · simp [checkEarningsAvailabilityMono, h]
    · simp [determineTargetYearMonthMono, checkEarningsAvailabilityMono, h]

/-- Witness for C2 amended: a timeout-style failure with no response
makes the income client fall back to 2024-05 while the monolithic client
propagates the failure. -/
theorem probe_transport_error_behavior_witness :
    determineTargetYearMonth 2024 6
      (.error ⟨none, some "ECONNABORTED", true, true⟩) = getPreviousMonth 2024 6
    ∧ determineTargetYearMonthMono 2024 6
      (.error ⟨none, some "ECONNABORTED", true, true⟩) =
        .error ⟨none, some "ECONNABORTED", true, true⟩ :=
  ⟨(probe_transport_error_behavior 2024 6 ⟨none, some "ECONNABORTED", true, true⟩).1,
    ((probe_transport_error_behavior 2024 6 ⟨none, some "ECONNABORTED", true, true⟩).2
      (by decide)).2⟩

/-- C10: the error classifier is total over the failure shapes and agrees
everywhere with the taxonomy as the spec words it; in particular a
failure with HTTP status 409 classifies as UpstreamError with the
extracted message, not as a distinct conflict kind. -/
theorem handleError_matches_taxonomy :
    (∀ e : AxiosFailure, handleError e = classifyTaxonomy e)
    ∧ (∀ (body : BodyData) (code : Option String) (ax isErr : Bool),
      handleError ⟨some (409, body), code, ax, isErr⟩ =
        .upstreamError 409 (extractErrorMessage body)) := by
  constructor
  · intro e
    rfl
  · intro body code ax isErr
    rfl

/-- C3 counterexample: a live-broadcast page with five items, upstream
hasNext false, offset 0, limit 10 and totalCount 100 returns hasMore
false, although offset + limit < totalCount holds and the page is
nonempty, so the claimed formula for the whole offset/limit family
demands true. -/
theorem offsetLimit_hasMore_lives_counterexample :
    fetchLivesHasMore (⟨[0, 1, 2, 3, 4], false, 100⟩ : LiveBroadcastData Nat) 0 10 = false
    ∧ ((0 : Int) + 10 < 100
      ∧ ([0, 1, 2, 3, 4] : List Nat).length > 0) := by
  decide

/-- C3 amended: the earnings and earnings-history fetches return
hasMore = (offset + limit < totalCount) and the page is nonempty, while
the live-broadcast fetch returns hasMore = hasNext and
(offset + limit < totalCount), independent of the returned item count. -/
theorem offsetLimit_hasMore_family (offset limit total : Int) (len : Nat)
    (d : LiveBroadcastData Nat) :
    fetchEarningsHasMore offset limit total len =
      (decide (offset + limit < total) && decide (len > 0))
    ∧ fetchEarningsHistoryHasMore offset limit total len =
      (decide (offset + limit < total) && decide (len > 0))
    ∧ fetchLivesHasMore d offset limit =
      (d.hasNext && decide (offset + limit < d.totalCount)) := by
  refine ⟨rfl, Bool.and_comm _ _, ?_⟩
  cases d with
  | mk p h t => cases h <;> simp [fetchLivesHasMore]

/-- C4 counterexample: with offset 0, limit 10 and totalCount 100 the
arithmetic condition holds, yet the live-broadcast hasMore is false when
hasNext is false and true when hasNext is true: the expression is not
equivalent to the arithmetic condition alone and does depend on
hasNext. -/
theorem lives_hasNext_dependence_counterexample :
    fetchLivesHasMore (⟨[0], false, 100⟩ : LiveBroadcastData Nat) 0 10 = false
    ∧ fetchLivesHasMore (⟨[0], true, 100⟩ : LiveBroadcastData Nat) 0 10 = true
    ∧ ((0 : Int) + 10 < 100) := by
  decide

/-- C4 amended: the double negation in the live-broadcast hasMore
expression is equivalent to the hasNext flag itself, so the fetch returns
hasMore = hasNext and (offset + limit < totalCount): the upstream flag is
respected, not discarded. -/
theorem lives_hasMore_hasNext_conjunction (α : Type) (d : LiveBroadcastData α)
    (offset limit : Int) :
    fetchLivesHasMore d offset limit =
      (d.hasNext && decide (offset + limit < d.totalCount)) := by
  cases d with
  | mk p h t => cases h <;> simp [fetchLivesHasMore]

/-- C6 counterexample: with pageSize 0, totalCount 25 and page 3 the
video fetch returns hasMore true (the JS division by zero yields
Infinity), and with limit 0, offset 0, totalCount 5 and five returned
items the earnings fetch returns hasMore true; the claim demands false in
both cases. -/
theorem zero_pageSize_hasMore_counterexample :
    fetchVideosHasMore 3 25 0 = true
    ∧ fetchEarningsHasMore 0 0 5 5 = true := by
  decide

/-- C6 amended: with pageSize 0 the video fetch returns hasMore true
exactly when totalCount is positive (division by zero yields Infinity,
and a comparison against the NaN arising for totalCount 0 is false); with
limit 0 the offset/limit fetches return hasMore = (offset < totalCount)
and the page is nonempty.  No division-by-zero exception exists in JS, so
no guard is needed or present. -/
theorem zero_pageSize_limit_hasMore (page total : Nat) (offset totalI : Int)
    (len : Nat) :
    fetchVideosHasMore page total 0 = decide (0 < total)
    ∧ fetchEarningsHasMore offset 0 totalI len =
      (decide (offset < totalI) && decide (len > 0))
    ∧ fetchEarningsHistoryHasMore offset 0 totalI len =
      (decide (len > 0) && decide (offset < totalI)) := by
  refine ⟨?_, ?_, ?_⟩
  · cases total <;> simp [fetchVideosHasMore, jsCeilDiv, jsLtNat]
  · simp [fetchEarningsHasMore]
  · simp [fetchEarningsHistoryHasMore]

/-- C9: enforce suspends so that the resumed request attempt starts no
earlier than minRequestInterval after the recorded timestamp of the
previous invocation, suspending for exactly the remainder when the
elapsed time is short; the new timestamp is recorded at resumption, so
two consecutive enforce calls start at least minRequestInterval apart;
the default interval is 1000 milliseconds. -/
theorem rateLimiter_enforce_spacing (last interval now now2 : Int) :
    last + interval ≤ enforceResumeTime last interval now
    ∧ (now - last < interval →
      enforceWaitTime last interval now = interval - (now - last))
    ∧ enforceNewLastRequestTime last interval now =
      enforceResumeTime last interval now
    ∧ enforceNewLastRequestTime last interval now + interval ≤
      enforceResumeTime (enforceNewLastRequestTime last interval now) interval now2
    ∧ defaultRequestInterval = 1000 := by
  have key : ∀ l n : Int, l + interval ≤ enforceResumeTime l interval n := by
    intro l n
    unfold enforceResumeTime enforceWaitTime
    split <;> omega
  refine ⟨key last now, ?_, rfl, key _ now2, rfl⟩
  intro h
  unfold enforceWaitTime
  simp [h]

/-- Witness for C9: a call 400 milliseconds after the recorded timestamp
with a 1000 millisecond interval resumes no earlier than instant 1000 and
waits exactly 600 milliseconds. -/
theorem rateLimiter_enforce_spacing_witness :
    (0 : Int) + 1000 ≤ enforceResumeTime 0 1000 400
    ∧ enforceWaitTime 0 1000 400 = 1000 - (400 - 0) :=
  ⟨(rateLimiter_enforce_spacing 0 1000 400 0).1,
    (rateLimiter_enforce_spacing 0 1000 400 0).2.1 (by decide)⟩

/-- C8: a request with a relative URL fails on the local guard before the
rate limiter runs and before any transport interaction, leaving the
client state, in particular lastRequestTime, unchanged; the HttpClient
variant likewise raises its local error before any transport call. -/
theorem relative_url_rejected_before_rate_limit (url : String) (skip : Bool)
    (st : PipelineState) (interval now : Int)
    (transport : Except AxiosFailure ApiEnvelope) :
    jsStartsWith url "http" = false →
    request url skip st interval now transport =
      ⟨.error (.localUrlError
        ("BaseNiconicoClient now requires absolute URLs. Received: " ++ url)),
        st, false, false⟩
    ∧ httpClientRequest url skip transport =
      (.error (.localUrlError
        ("HttpClient now requires absolute URLs. Received: " ++ url)), false) := by
  intro h
  constructor
  · simp [request, h]
  · simp [httpClientRequest, h]

/-- Witness for C8: a relative path is rejected locally with the state
untouched and the transport never reached. -/
theorem relative_url_rejected_before_rate_limit_witness :
    request "/users/me/videos" false ⟨0⟩ 1000 5 (.ok ⟨some 200⟩) =
      ⟨.error (.localUrlError
        ("BaseNiconicoClient now requires absolute URLs. Received: " ++ "/users/me/videos")),
        ⟨0⟩, false, false⟩
    ∧ httpClientRequest "/users/me/videos" false (.ok ⟨some 200⟩) =
      (.error (.localUrlError
        ("HttpClient now requires absolute URLs. Received: " ++ "/users/me/videos")), false) :=
  relative_url_rejected_before_rate_limit "/users/me/videos" false ⟨0⟩ 1000 5
    (.ok ⟨some 200⟩) (by decide)

/-- C5: for a positive pageSize the video fetch returns hasMore exactly
when page is below the ceiling of totalCount divided by pageSize. -/
theorem videos_hasMore_ceil (page total ps : Nat) (h : 0 < ps) :
    fetchVideosHasMore page total ps = true ↔
      (page : ℤ) < ⌈(total : ℚ) / (ps : ℚ)⌉ := by
  unfold fetchVideosHasMore jsCeilDiv
  rw [if_neg (Nat.pos_iff_ne_zero.mp h)]
  simp only [jsLtNat, decide_eq_true_eq]
  have h1 : page < (total + ps - 1) / ps ↔ page * ps < total := by
    rw [Nat.lt_iff_add_one_le, Nat.le_div_iff_mul_le h, Nat.succ_mul]
    omega
  have hps : (0 : ℚ) < (ps : ℚ) := by exact_mod_cast h
  rw [h1, Int.lt_ceil, lt_div_iff₀ hps]
  constructor
  · intro hlt
    exact_mod_cast hlt
  · intro hlt
    exact_mod_cast hlt

/-- Witness for C5: with totalCount 25 and pageSize 10, page 2 has more
pages and page 3 does not. -/
theorem videos_hasMore_ceil_witness :
    fetchVideosHasMore 2 25 10 = true ∧ fetchVideosHasMore 3 25 10 = false := by
  constructor
  · exact (videos_hasMore_ceil 2 25 10 (by decide)).mpr
      (by rw [Int.lt_ceil]; norm_num)
  · rw [Bool.eq_false_iff]
    intro hc
    have hlt := (videos_hasMore_ceil 3 25 10 (by decide)).mp hc
    rw [Int.lt_ceil] at hlt
    norm_num at hlt

/-- C7: with the current month in 1..12, the earnings-history validation
rejects, before any network call, exactly when the YYYYMM string fails to
parse, or the parsed month lies outside 1..12, or the period is strictly
after the current calendar month, or the period is strictly after the
current month minus two (month indices 12 * year + month make the wrapped
comparison explicit); and the network request is issued exactly when
validation passes. -/
theorem earningsHistory_validation_iff (s : String) (cy cm : Int)
    (hcm1 : 1 ≤ cm) (hcm2 : cm ≤ 12) :
    (exceptOk (fetchEarningsHistoryValidate s cy cm) = false ↔
      (parseIntJS (jsSubstring s 0 4) = none
        ∨ parseIntJS (jsSubstring s 4 6) = none
        ∨ (∃ m, parseIntJS (jsSubstring s 4 6) = some m ∧ (m < 1 ∨ 12 < m))
        ∨ (∃ y m, parseIntJS (jsSubstring s 0 4) = some y
            ∧ parseIntJS (jsSubstring s 4 6) = some m
            ∧ 12 * cy + cm < 12 * y + m)
        ∨ (∃ y m, parseIntJS (jsSubstring s 0 4) = some y
            ∧ parseIntJS (jsSubstring s 4 6) = some m
            ∧ 12 * cy + cm - 2 < 12 * y + m)))
    ∧ fetchEarningsHistoryNetworkCalled s cy cm =
      exceptOk (fetchEarningsHistoryValidate s cy cm) := by
  refine ⟨?_, rfl⟩
  rcases hy : parseIntJS (jsSubstring s 0 4) with _ | y <;>
    rcases hm : parseIntJS (jsSubstring s 4 6) with _ | m <;>
      simp only [fetchEarningsHistoryValidate, hy, hm, exceptOk, Option.some.injEq,
        reduceCtorEq, false_and, exists_false, exists_eq_left, exists_and_left,
        exists_eq_left', or_false, false_or, true_or, or_true, iff_true]
  by_cases hgt : cm > 2
  · simp only [if_pos hgt]
    split_ifs with hbad hfut hrec <;> simp [exceptOk] <;> omega
  · simp only [if_neg hgt]
    split_ifs with hbad hfut hrec <;> simp [exceptOk] <;> omega

/-- Witness for C7, with the current date fixed at 2024-06: 202406 is
rejected through the two-months-ago rule, 202404 is accepted, 202413 is
rejected as malformed, 202501 is rejected as a future period. -/
theorem earningsHistory_validation_iff_witness :
    exceptOk (fetchEarningsHistoryValidate "202406" 2024 6) = false
    ∧ exceptOk (fetchEarningsHistoryValidate "202404" 2024 6) = true
    ∧ exceptOk (fetchEarningsHistoryValidate "202413" 2024 6) = false
    ∧ exceptOk (fetchEarningsHistoryValidate "202501" 2024 6) = false := by
  refine ⟨?_, by decide, by decide, by decide⟩
  exact (earningsHistory_validation_iff "202406" 2024 6 (by decide) (by decide)).1.mpr
    (Or.inr (Or.inr (Or.inr (Or.inr ⟨2024, 6, by decide, by decide, by decide⟩))))
